import Mathlib

/-!
Shallow embedding of `vendor/github.com/cilium/ebpf/perf/reader.go`:
the user-space perf-event reader (record decoding, the blocking read
loop, pause/resume against the event array, and one-shot teardown).

Bytes are modelled as `List Nat` (each entry taken mod 256 on decode),
`io.Reader` as a byte list consumed from the front, and Go errors as an
inductive type mirroring the sentinels, wrappers (`errors.Wrap`) and
typed errors (`*unknownEventError`) that the source constructs.
-/

namespace Perf

/-- Go error values reachable in `reader.go`: the `io` sentinels, the
package sentinels `errClosed` / `errEOR`, the typed `unknownEventError`,
plain `errors.New` messages, raw syscall errors (which may report
`Temporary() = true`), the not-exist map error, and `errors.Wrap`. -/
inductive GoErr where
  | eof
  | unexpectedEOF
  | closedErr
  | eorErr
  | unknownEvent (eventType : Nat)
  | msg (s : String)
  | syscall (errno : Nat) (temp : Bool)
  | notExist
  | wrap (e : GoErr) (s : String)
  deriving DecidableEq, Repr

/-- `errors.Cause`: strip `errors.Wrap` layers down to the base error. -/
def errorsCause : GoErr → GoErr
  | .wrap e _ => errorsCause e
  | e => e

/-- `IsClosed` from reader.go: the cause is the `errClosed` sentinel. -/
def IsClosed (e : GoErr) : Bool :=
  match errorsCause e with
  | .closedErr => true
  | _ => false

/-- `IsUnknownEvent` from reader.go: the cause is a `*unknownEventError`. -/
def IsUnknownEvent (e : GoErr) : Bool :=
  match errorsCause e with
  | .unknownEvent _ => true
  | _ => false

/-- `err.(temporaryError)` succeeds (with `Temporary() = true`) only for
raw syscall errors that are marked temporary; no other error value built
in reader.go implements the interface. -/
def isTemporary : GoErr → Bool
  | .syscall _ t => t
  | _ => false

/-- `Record` from reader.go. `rawSample = none` models a nil Go slice
(the zero value); `some l` models an allocated slice with contents `l`. -/
structure Record where
  cpu : Int
  rawSample : Option (List Nat)
  lostSamples : Nat
  deriving DecidableEq, Repr

/-- The Go zero value `Record{}`. -/
def Record.zero : Record := ⟨0, none, 0⟩

/-- `io.ReadFull` semantics on a front-consumed byte list: `n` bytes are
taken if available; zero available bytes give `io.EOF`, a short read
gives `io.ErrUnexpectedEOF`. `binary.Read` of an `n`-byte value has the
same error behaviour. -/
def readFull (n : Nat) (bs : List Nat) : Except GoErr (List Nat × List Nat) :=
  if n ≤ bs.length then .ok (bs.take n, bs.drop n)
  else if bs.length = 0 then .error .eof
  else .error .unexpectedEOF

/-- Little-endian (host native) integer decoding of a byte list. -/
def leDecode : List Nat → Nat
  | [] => 0
  | b :: bs => b % 256 + 256 * leDecode bs

/-- Little-endian (host native) encoding of `v` into `w` bytes. -/
def leEncode : Nat → Nat → List Nat
  | 0, _ => []
  | w + 1, v => v % 256 :: leEncode w (v / 256)

/-- The 8-byte `perf_event_header` with the given `type`, `misc`, `size`
fields, in native byte order. -/
def encodeHeader (ty misc sz : Nat) : List Nat :=
  leEncode 4 ty ++ leEncode 2 misc ++ leEncode 2 sz

/-- `PERF_RECORD_LOST` from reader.go. -/
def perfRecordLost : Nat := 2

/-- `PERF_RECORD_SAMPLE` from reader.go. -/
def perfRecordSample : Nat := 9

/-- `readLostRecords`: reads the 16-byte `{ID u64, Lost u64}` body and
returns the `Lost` field; errors are wrapped. Also returns the bytes
left unconsumed. -/
def readLostRecords (rd : List Nat) : (Nat × Option GoErr) × List Nat :=
  match readFull 16 rd with
  | .error e => ((0, some (.wrap e "can\x27t read lost records header")), rd.drop 16)
  | .ok (body, rest) => ((leDecode (body.drop 8), none), rest)

/-- `readRawSample`: reads the `u32` size then that many data bytes via
`io.ReadFull`. On a short data read the pre-allocated buffer keeps its
zero padding and the error is wrapped; the partially filled buffer is
still returned, as in the source. -/
def readRawSample (rd : List Nat) : (Option (List Nat) × Option GoErr) × List Nat :=
  match readFull 4 rd with
  | .error e => ((none, some (.wrap e "can\x27t read sample size")), rd.drop 4)
  | .ok (szb, rest) =>
    let size := leDecode szb
    if size ≤ rest.length then
      ((some (rest.take size), none), rest.drop size)
    else if rest.length = 0 then
      ((some (List.replicate size 0), some (.wrap .eof "can\x27t read sample")), [])
    else
      ((some (rest ++ List.replicate (size - rest.length) 0),
        some (.wrap .unexpectedEOF "can\x27t read sample")), [])

/-- `readRecord`: reads the 8-byte header; `io.EOF` there becomes the
internal `errEOR` signal, any other header error is wrapped; then the
body is dispatched on the header type (2 = Lost, 9 = Sample, otherwise
`unknownEventError`). Returns the record, the error, and the bytes left
unconsumed. -/
def readRecord (rd : List Nat) (cpu : Int) : (Record × Option GoErr) × List Nat :=
  match readFull 8 rd with
  | .error .eof => ((Record.zero, some .eorErr), rd)
  | .error e => ((Record.zero, some (.wrap e "can\x27t read event header")), rd.drop 8)
  | .ok (hdr, rest) =>
    let ty := leDecode (hdr.take 4)
    if ty = perfRecordLost then
      match readLostRecords rest with
      | ((lost, err), rem) => ((⟨cpu, none, lost⟩, err), rem)
    else if ty = perfRecordSample then
      match readRawSample rest with
      | ((sample, err), rem) => ((⟨cpu, sample, 0⟩, err), rem)
    else
      ((Record.zero, some (.unknownEvent ty)), rest)

/-- One entry of `pr.epollRings`: a ring pushed onto the pending-ready
stack after `loadHead`. `data` is the snapshot of the ring bytes between
the tail and the snapshotted head (the ring internals are not part of
the sources; per the spec, `load_head` freezes the readable region and
`next_record` consumes it, returning end-of-ring when it is empty). -/
structure RingSnap where
  cpu : Int
  data : List Nat
  deriving DecidableEq, Repr

/-- One entry returned by `unix.EpollWait`: either the close eventfd
became readable, or a ring did (`cpu` is the tag stuffed in `Pad`, and
`snapshot` the region `loadHead` freezes at that moment). -/
inductive EpollEv where
  | closeEv
  | ringEv (cpu : Int) (snapshot : List Nat)
  deriving DecidableEq, Repr

/-- The outcome of one `unix.EpollWait` call: an error (possibly
temporary) or a list of ready events. -/
inductive WaitOutcome where
  | err (e : GoErr)
  | ready (evs : List EpollEv)
  deriving DecidableEq, Repr

/-- The drain phase of `Read`: repeatedly call `readRecordFromRing` on
the last (top) entry of `epollRings`; `errEOR` pops the ring, anything
else returns with the stack updated only at the top (its consumed
bytes). The list head is the stack top. -/
def drainStack : List RingSnap → Option (Record × Option GoErr) × List RingSnap
  | [] => (none, [])
  | r :: rest =>
    if (readRecord r.data r.cpu).1.2 = some .eorErr then drainStack rest
    else (some (readRecord r.data r.cpu).1, ⟨r.cpu, (readRecord r.data r.cpu).2⟩ :: rest)

/-- The event-processing loop inside `Read`: events are scanned in
order; a close-eventfd event returns immediately (`errClosed`), other
events push their ring onto the stack (Go appends, so later events are
nearer the top; here the list head is the top). The Bool tells whether
the close event was hit. -/
def processEvents : List EpollEv → List RingSnap → List RingSnap × Bool
  | [], stack => (stack, false)
  | .closeEv :: _, stack => (stack, true)
  | .ringEv cpu snap :: rest, stack => processEvents rest (⟨cpu, snap⟩ :: stack)

/-- The waiting phase of the `Read` loop, entered with an empty stack
and driven by the successive outcomes `ws` of `unix.EpollWait`: a
temporary wait error is retried, another wait error is returned, ready
events are pushed (returning `errClosed` on the close eventfd) and the
pushed stack drained, waiting again if it drains dry. `none` means
every wait outcome was consumed and the call is still blocked. -/
def waitLoop : List WaitOutcome → Option (Record × Option GoErr × List RingSnap)
  | [] => none
  | .err e :: rest =>
    if isTemporary e then waitLoop rest
    else some (Record.zero, some e, [])
  | .ready evs :: rest =>
    match processEvents evs [] with
    | (pushed, true) => some (Record.zero, some .closedErr, pushed)
    | (pushed, false) =>
      match drainStack pushed with
      | (some (rec, e), st) => some (rec, e, st)
      | (none, _) => waitLoop rest

/-- The `for` loop of `Read`: drain the pending-ready stack; once it
runs dry, enter the waiting phase. -/
def readModel (ws : List WaitOutcome) (stack : List RingSnap) :
    Option (Record × Option GoErr × List RingSnap) :=
  match drainStack stack with
  | (some (rec, e), st) => some (rec, e, st)
  | (none, _) => waitLoop ws

/-- Association-list removal, modelling `ebpf.Map.Delete`. -/
def mapDelete : List (Nat × Nat) → Nat → List (Nat × Nat)
  | [], _ => []
  | p :: rest, k => if p.1 = k then mapDelete rest k else p :: mapDelete rest k

/-- Association-list update, modelling `ebpf.Map.Put` on the event
array: the key is overwritten if present. -/
def mapPut (arr : List (Nat × Nat)) (k v : Nat) : List (Nat × Nat) :=
  (k, v) :: mapDelete arr k

/-- Association-list lookup on the event array. -/
def mapLookup : List (Nat × Nat) → Nat → Option Nat
  | [], _ => none
  | p :: rest, k => if p.1 = k then some p.2 else mapLookup rest k

/-- The mutable state of a `Reader`. `rings = none` and
`pauseFds = none` model the nil slices written by `Close`;
`arrayContents` is the reader's cloned handle on the event array
(`arrayClosed` records that `Close` released it). -/
structure ReaderState where
  epollFd : Int
  closeFd : Int
  rings : Option Nat
  epollRings : List RingSnap
  pauseFds : Option (List Nat)
  closeOnceDone : Bool
  arrayContents : List (Nat × Nat)
  arrayClosed : Bool
  deriving DecidableEq, Repr

/-- Environment of a `Read` call: the successive `EpollWait` outcomes. -/
structure ReadEnv where
  waitOutcomes : List WaitOutcome

/-- `Read` from reader.go: fail with `errClosed` once `Close` has set
`epollFd = -1`, otherwise run the wait/drain loop and store the updated
pending-ready stack back. `none` models a call still blocked in
`EpollWait`. -/
def Read (env : ReadEnv) (s : ReaderState) :
    Option (Record × Option GoErr × ReaderState) :=
  if s.epollFd = -1 then some (Record.zero, some .closedErr, s)
  else
    match readModel env.waitOutcomes s.epollRings with
    | some (rec, e, st) => some (rec, e, { s with epollRings := st })
    | none => none

/-- Outcome of one `ebpf.Map.Delete` call, decided by the environment:
success, the not-exist error (`ebpf.IsNotExist`), or another failure. -/
inductive DeleteOutcome where
  | ok
  | notExist
  | fail (e : GoErr)

/-- Environment of a `Pause` call. -/
structure PauseEnv where
  del : Nat → DeleteOutcome

/-- Message of the `errors.Wrapf` in `Pause` at CPU `i`. -/
def pauseFailMsg (i : Nat) : String :=
  "could\x27t delete event fd for CPU " ++ toString i

/-- Message of the `errors.Wrapf` in `Resume` for fd `fd` at CPU `i`. -/
def resumeFailMsg (fd : Nat) (i : Nat) : String :=
  "could\x27t put event fd " ++ toString fd ++ " for CPU " ++ toString i

/-- The `for` loop of `Pause`, iterating `cnt` more indices starting at
`i`: delete index `i` from the array, ignoring not-exist errors,
aborting (wrapped) on any other failure. -/
def pauseLoop (env : PauseEnv) : List (Nat × Nat) → Nat → Nat →
    List (Nat × Nat) × Option GoErr
  | arr, _, 0 => (arr, none)
  | arr, i, cnt + 1 =>
    match env.del i with
    | .ok => pauseLoop env (mapDelete arr i) (i + 1) cnt
    | .notExist => pauseLoop env arr (i + 1) cnt
    | .fail e => (arr, some (.wrap e (pauseFailMsg i)))

/-- `Pause` from reader.go: `errClosed` when `pauseFds` is nil,
otherwise delete every CPU index from the event array. -/
def Pause (env : PauseEnv) (s : ReaderState) : ReaderState × Option GoErr :=
  match s.pauseFds with
  | none => (s, some .closedErr)
  | some fds =>
    let r := pauseLoop env s.arrayContents 0 fds.length
    ({ s with arrayContents := r.1 }, r.2)


/-- Environment of a `Resume` call: whether `ebpf.Map.Put` succeeds at
each index, and the raw error when it does not. -/
structure ResumeEnv where
  putOk : Nat → Bool
  putErr : Nat → GoErr

/-- The `for` loop of `Resume`, iterating `cnt` more indices starting
at `i`: put `pauseFds[i]` at index `i`, aborting (wrapped, reporting
the index and fd) on the first failure; indices already written stay
written. -/
def resumeLoop (env : ResumeEnv) (fds : List Nat) : List (Nat × Nat) → Nat → Nat →
    List (Nat × Nat) × Option GoErr
  | arr, _, 0 => (arr, none)
  | arr, i, cnt + 1 =>
    if env.putOk i then
      resumeLoop env fds (mapPut arr i (fds.getD i 0)) (i + 1) cnt
    else (arr, some (.wrap (env.putErr i) (resumeFailMsg (fds.getD i 0) i)))

/-- `Resume` from reader.go: `errClosed` when `pauseFds` is nil,
otherwise re-insert every cached fd at its CPU index. -/
def Resume (env : ResumeEnv) (s : ReaderState) : ReaderState × Option GoErr :=
  match s.pauseFds with
  | none => (s, some .closedErr)
  | some fds =>
    let r := resumeLoop env fds s.arrayContents 0 fds.length
    ({ s with arrayContents := r.1 }, r.2)

/-- Environment of a `Close` call: whether the eventfd write succeeds,
and the raw error when it does not. -/
structure CloseEnv where
  writeOk : Bool
  writeErr : GoErr

/-- One observable teardown side effect of `Close`. -/
inductive CloseAction where
  | writeEventfd
  | closeEpollFd
  | closeCloseFd
  | closeRing (i : Nat)
  | closeArray
  deriving DecidableEq, Repr

/-- `Close` from reader.go: a `sync.Once` guard around the teardown.
The second and later calls skip the body and return nil. Inside the
body: write the eventfd (on failure the body returns early, wrapped);
then close the epoll fd and eventfd, set both to -1, close every ring,
nil out `rings` and `pauseFds`, and close the array handle. The final
result goes through `errors.Wrap(err, "close PerfReader")`, which is
nil for a nil `err`. The action trace records the teardown performed. -/
def Close (env : CloseEnv) (s : ReaderState) :
    ReaderState × Option GoErr × List CloseAction :=
  if s.closeOnceDone then (s, none, [])
  else if env.writeOk then
    ({ s with
        closeOnceDone := true
        epollFd := -1
        closeFd := -1
        rings := none
        pauseFds := none
        arrayClosed := true },
     none,
     [.writeEventfd, .closeEpollFd, .closeCloseFd]
       ++ (List.range (s.rings.getD 0)).map .closeRing ++ [.closeArray])
  else
    ({ s with closeOnceDone := true },
     some (.wrap (.wrap env.writeErr "can\x27t write event fd") "close PerfReader"),
     [.writeEventfd])

/-- Environment of `NewReaderWithOptions`: success of each external
call, the fd each ring gets, and the initial contents of the cloned
event array. -/
structure ConstructEnv where
  epollCreateOk : Bool
  ringSetupOk : Nat → Bool
  ringFd : Nat → Nat
  addOk : Nat → Bool
  addCloseOk : Bool
  eventfdOk : Bool
  cloneOk : Bool
  putOk : Nat → Bool
  putErr : Nat → GoErr
  arrayInit : List (Nat × Nat)

/-- `addToEpoll` from reader.go: rejects a CPU tag above `MaxInt32`,
otherwise wraps an `EpollCtl` failure (decided by `ok`). -/
def addToEpoll (cpu : Int) (ok : Bool) : Option GoErr :=
  if cpu > 2147483647 then some (.msg ("unsupported CPU number: " ++ toString cpu))
  else if ok then none
  else some (.wrap (.syscall 1 false) "can\x27t add fd to epoll")

/-- Modelled from the spec: `newPerfEventRing` is not part of the
sources. Per §4.1, creation fails with a config error if the size is
< 1 or the watermark is not smaller than the size, and with a setup
error on mapping/descriptor failure (decided by the environment). -/
def newPerfEventRing (env : ConstructEnv) (cpu : Nat) (size watermark : Int) :
    Except GoErr Nat :=
  if size < 1 then .error (.msg "size must be larger than 0")
  else if watermark ≥ size then .error (.msg "watermark must be smaller than size")
  else if env.ringSetupOk cpu then .ok (env.ringFd cpu)
  else .error (.syscall 1 false)

/-- The ring-construction loop of `NewReaderWithOptions`, iterating
`cnt` more CPUs starting at `i`: create a ring and register it with
epoll for each CPU, accumulating the fds that seed `pauseFds`. -/
def buildRings (env : ConstructEnv) (size wm : Int) : Nat → Nat → List Nat →
    Except GoErr (List Nat)
  | _, 0, acc => .ok acc
  | i, cnt + 1, acc =>
    match newPerfEventRing env i size wm with
    | .error e => .error (.wrap e ("failed to create perf ring for CPU " ++ toString i))
    | .ok fd =>
      match addToEpoll (Int.ofNat i) (env.addOk i) with
      | some e => .error e
      | none => buildRings env size wm (i + 1) cnt (acc ++ [fd])

/-- `NewReaderWithOptions` from reader.go: reject `perCPUBuffer < 1`;
create the epoll fd; build one ring per entry of the event array
(`nCPU = MaxEntries`, with no lower bound checked); create and register
the close eventfd; clone the array; then call `Resume` twice before
returning the reader. Any failure returns an error and no reader. -/
def NewReaderWithOptions (env : ConstructEnv) (maxEntries : Nat)
    (perCPUBuffer watermark : Int) : Except GoErr ReaderState :=
  if perCPUBuffer < 1 then .error (.msg "perCPUBuffer must be larger than 0")
  else if ¬env.epollCreateOk then
    .error (.wrap (.syscall 1 false) "can\x27t create epoll fd")
  else
    match buildRings env perCPUBuffer watermark 0 maxEntries [] with
    | .error e => .error e
    | .ok pauseFds =>
      if ¬env.eventfdOk then .error (.syscall 1 false)
      else
        match addToEpoll (-1) env.addCloseOk with
        | some e => .error e
        | none =>
          if ¬env.cloneOk then .error (.syscall 1 false)
          else
            let s0 : ReaderState :=
              { epollFd := 3
                closeFd := 4
                rings := some maxEntries
                epollRings := []
                pauseFds := some pauseFds
                closeOnceDone := false
                arrayContents := env.arrayInit
                arrayClosed := false }
            let renv : ResumeEnv := ⟨env.putOk, env.putErr⟩
            let r1 := Resume renv s0
            match r1.2 with
            | some e => .error e
            | none =>
              let r2 := Resume renv r1.1
              match r2.2 with
              | some e => .error e
              | none => .ok r2.1

/-- Discriminator used to state that construction returned a reader. -/
def constructionOk : Except GoErr ReaderState → Bool
  | .ok _ => true
  | .error _ => false

/-! Helper lemmas about encoding, decoding and byte splitting. -/

theorem leEncode_length (w v : Nat) : (leEncode w v).length = w := by
  induction w generalizing v with
  | zero => rfl
  | succ w ih => simp [leEncode, ih]

theorem leDecode_leEncode (w v : Nat) (h : v < 256 ^ w) :
    leDecode (leEncode w v) = v := by
  induction w generalizing v with
  | zero => simp [leEncode, leDecode]; omega
  | succ w ih =>
    have h2 : v / 256 < 256 ^ w := by
      have hp : 256 ^ (w + 1) = 256 ^ w * 256 := pow_succ 256 w
      omega
    simp [leEncode, leDecode, ih _ h2]
    omega

theorem take_len_append (a b : List Nat) (n : Nat) (h : a.length = n) :
    (a ++ b).take n = a := by
  subst h; exact List.take_left a b

theorem drop_len_append (a b : List Nat) (n : Nat) (h : a.length = n) :
    (a ++ b).drop n = b := by
  subst h; exact List.drop_left a b

theorem readFull_exact (n : Nat) (a b : List Nat) (h : a.length = n) :
    readFull n (a ++ b) = .ok (a, b) := by
  unfold readFull
  rw [if_pos (by simp [List.length_append, h])]
  rw [take_len_append a b n h, drop_len_append a b n h]

theorem encodeHeader_length (ty misc sz : Nat) :
    (encodeHeader ty misc sz).length = 8 := by
  simp [encodeHeader, leEncode_length]

theorem encodeHeader_take4 (ty misc sz : Nat) :
    (encodeHeader ty misc sz).take 4 = leEncode 4 ty := by
  rw [encodeHeader, List.append_assoc]
  exact take_len_append _ _ 4 (leEncode_length 4 ty)

/-! Decoding the two known record kinds from their encoded layout. -/

theorem readLostRecords_encode (id lost : Nat) (h : lost < 256 ^ 8) :
    readLostRecords (leEncode 8 id ++ leEncode 8 lost) = ((lost, none), []) := by
  have hl : (leEncode 8 id ++ leEncode 8 lost).length = 16 := by
    simp [leEncode_length]
  have hf : readFull 16 ((leEncode 8 id ++ leEncode 8 lost) ++ []) =
      .ok (leEncode 8 id ++ leEncode 8 lost, []) := readFull_exact 16 _ [] hl
  rw [List.append_nil] at hf
  rw [readLostRecords, hf]
  simp [drop_len_append _ _ 8 (leEncode_length 8 id), leDecode_leEncode 8 lost h]

theorem readRawSample_encode (szv : Nat) (data : List Nat) (h : szv < 256 ^ 4)
    (hlen : data.length = szv) :
    readRawSample (leEncode 4 szv ++ data) = ((some data, none), []) := by
  have hf : readFull 4 (leEncode 4 szv ++ data) = .ok (leEncode 4 szv, data) :=
    readFull_exact 4 _ _ (leEncode_length 4 szv)
  rw [readRawSample, hf]
  simp only [leDecode_leEncode 4 szv h]
  rw [if_pos (le_of_eq hlen.symm)]
  simp [← hlen]

/-- C2: decoding an 8-byte native-endian header with type 2 followed by
the body `{id : u64, lost_count : u64}` yields a record whose
lost-samples count is `lost_count` and whose sample payload is empty
(the nil slice), with no error and the input fully consumed. -/
theorem c2_lost_roundtrip (cpu : Int) (misc sz id lost : Nat)
    (h : lost < 2 ^ 64) :
    readRecord (encodeHeader perfRecordLost misc sz
        ++ (leEncode 8 id ++ leEncode 8 lost)) cpu
      = ((⟨cpu, none, lost⟩, none), []) := by
  have hf := readFull_exact 8 (encodeHeader perfRecordLost misc sz)
    (leEncode 8 id ++ leEncode 8 lost) (encodeHeader_length _ _ _)
  rw [readRecord, hf]
  simp only [encodeHeader_take4,
    leDecode_leEncode 4 perfRecordLost (by norm_num [perfRecordLost])]
  simp [readLostRecords_encode id lost (by norm_num at h ⊢; omega)]

theorem c2_witness : readRecord (encodeHeader perfRecordLost 3 24
      ++ (leEncode 8 7 ++ leEncode 8 42)) 1
    = ((⟨1, none, 42⟩, none), []) :=
  c2_lost_roundtrip 1 3 24 7 42 (by norm_num)

/-- C3: decoding an 8-byte native-endian header with type 9 followed by
the body `{size : u32, data : size bytes}` yields a record whose sample
payload is exactly `data` (of length `size`) and whose lost-samples
count is zero, with no error and the input fully consumed. -/
theorem c3_sample_roundtrip (cpu : Int) (misc sz szv : Nat) (data : List Nat)
    (h : szv < 2 ^ 32) (hlen : data.length = szv) :
    readRecord (encodeHeader perfRecordSample misc sz
        ++ (leEncode 4 szv ++ data)) cpu
      = ((⟨cpu, some data, 0⟩, none), []) := by
  have hf := readFull_exact 8 (encodeHeader perfRecordSample misc sz)
    (leEncode 4 szv ++ data) (encodeHeader_length _ _ _)
  rw [readRecord, hf]
  simp only [encodeHeader_take4,
    leDecode_leEncode 4 perfRecordSample (by norm_num [perfRecordSample])]
  simp [perfRecordSample, perfRecordLost,
    readRawSample_encode szv data (by norm_num at h ⊢; omega) hlen]

theorem c3_witness : readRecord (encodeHeader perfRecordSample 0 20
      ++ (leEncode 4 3 ++ [10, 20, 30])) 0
    = ((⟨0, some [10, 20, 30], 0⟩, none), []) :=
  c3_sample_roundtrip 0 0 20 3 [10, 20, 30] (by norm_num) rfl

/-- C4: any input whose 8-byte header carries a type other than 2 and 9
decodes to the zero record (nil payload, zero lost count) and a typed
unknown-event error, which `IsUnknownEvent` accepts and `IsClosed`
rejects. -/
theorem c4_unknown_type (bs : List Nat) (cpu : Int)
    (hlen : 8 ≤ bs.length)
    (h2 : leDecode (bs.take 4) ≠ perfRecordLost)
    (h9 : leDecode (bs.take 4) ≠ perfRecordSample) :
    readRecord bs cpu
      = ((Record.zero, some (.unknownEvent (leDecode (bs.take 4)))), bs.drop 8)
    ∧ IsUnknownEvent (GoErr.unknownEvent (leDecode (bs.take 4))) = true
    ∧ IsClosed (GoErr.unknownEvent (leDecode (bs.take 4))) = false := by
  have hf : readFull 8 bs = .ok (bs.take 8, bs.drop 8) := by
    unfold readFull; rw [if_pos hlen]
  have ht : (bs.take 8).take 4 = bs.take 4 := by
    rw [List.take_take]; norm_num
  refine ⟨?_, rfl, rfl⟩
  rw [readRecord, hf]
  simp only [ht]
  rw [if_neg h2, if_neg h9]

theorem c4_witness :
    readRecord (encodeHeader 5 0 0) 0
      = ((Record.zero, some (.unknownEvent (leDecode ((encodeHeader 5 0 0).take 4)))),
         (encodeHeader 5 0 0).drop 8)
    ∧ IsUnknownEvent (GoErr.unknownEvent (leDecode ((encodeHeader 5 0 0).take 4))) = true
    ∧ IsClosed (GoErr.unknownEvent (leDecode ((encodeHeader 5 0 0).take 4))) = false :=
  c4_unknown_type (encodeHeader 5 0 0) 0 (by decide) (by decide) (by decide)

/-! The shape of the errors each body reader can produce. -/

theorem readLostRecords_err_shape (rd : List Nat) :
    (readLostRecords rd).1.2 = none
    ∨ ∃ e, (readLostRecords rd).1.2
        = some (.wrap e "can\x27t read lost records header") := by
  cases hf : readFull 16 rd with
  | error e => right; exact ⟨e, by simp [readLostRecords, hf]⟩
  | ok p => obtain ⟨body, rest⟩ := p; left; simp [readLostRecords, hf]

theorem readRawSample_err_shape (rd : List Nat) :
    (readRawSample rd).1.2 = none
    ∨ ∃ e s, (readRawSample rd).1.2 = some (.wrap e s) := by
  cases hf : readFull 4 rd with
  | error e =>
    right
    exact ⟨e, "can\x27t read sample size", by simp [readRawSample, hf]⟩
  | ok p =>
    obtain ⟨szb, rest⟩ := p
    by_cases h1 : leDecode szb ≤ rest.length
    · left; simp [readRawSample, hf, h1]
    · by_cases h2 : rest.length = 0
      · right
        refine ⟨.eof, "can\x27t read sample", ?_⟩
        have h3 : ¬leDecode szb = 0 := by omega
        simp [readRawSample, hf, h1, h2, h3]
      · right
        refine ⟨.unexpectedEOF, "can\x27t read sample", ?_⟩
        simp [readRawSample, hf, h1, h2]

theorem readRecord_eor_iff (bs : List Nat) (cpu : Int) :
    (readRecord bs cpu).1.2 = some .eorErr ↔ bs = [] := by
  constructor
  · intro h
    by_contra hne
    rcases Nat.lt_or_ge bs.length 8 with hl | hl
    · have hf : readFull 8 bs = .error .unexpectedEOF := by
        unfold readFull
        rw [if_neg (by omega), if_neg (by simpa [List.length_eq_zero] using hne)]
      simp [readRecord, hf] at h
    · have hf : readFull 8 bs = .ok (bs.take 8, bs.drop 8) := by
        unfold readFull; rw [if_pos hl]
      simp only [readRecord, hf] at h
      by_cases h2 : leDecode ((bs.take 8).take 4) = perfRecordLost
      · rw [if_pos h2] at h
        rcases readLostRecords_err_shape (bs.drop 8) with hs | ⟨e, hs⟩ <;>
          simp [hs] at h
      · rw [if_neg h2] at h
        by_cases h9 : leDecode ((bs.take 8).take 4) = perfRecordSample
        · rw [if_pos h9] at h
          rcases readRawSample_err_shape (bs.drop 8) with hs | ⟨e, s, hs⟩ <;>
            simp [hs] at h
        · rw [if_neg h9] at h
          simp at h
  · intro h; subst h; rfl

/-- C10: only an end-of-input at the very start of the 8-byte header is
reported as the internal end-of-ring signal (equivalently, only the
empty input); a truncated Lost body and a Sample body shorter than its
declared size are surfaced as wrapped decode errors, never as
end-of-ring. -/
theorem c10_eor_only_at_header_start (cpu : Int) :
    (∀ bs : List Nat, ((readRecord bs cpu).1.2 = some .eorErr ↔ bs = []))
    ∧ (∀ misc sz : Nat, ∀ body : List Nat, body.length < 16 →
        ∃ e, (readRecord (encodeHeader perfRecordLost misc sz ++ body) cpu).1.2
          = some (.wrap e "can\x27t read lost records header"))
    ∧ (∀ misc sz szv : Nat, ∀ body : List Nat, szv < 2 ^ 32 → body.length < szv →
        ∃ e, (readRecord (encodeHeader perfRecordSample misc sz
            ++ (leEncode 4 szv ++ body)) cpu).1.2
          = some (.wrap e "can\x27t read sample")) := by
  refine ⟨fun bs => readRecord_eor_iff bs cpu, ?_, ?_⟩
  · intro misc sz body hb
    have hf16 : ∃ e', readFull 16 body = .error e' := by
      unfold readFull; rw [if_neg (by omega)]
      by_cases hz : body.length = 0
      · rw [if_pos hz]; exact ⟨_, rfl⟩
      · rw [if_neg hz]; exact ⟨_, rfl⟩
    obtain ⟨e', he'⟩ := hf16
    refine ⟨e', ?_⟩
    rw [readRecord, readFull_exact 8 _ _ (encodeHeader_length _ _ _)]
    simp only [encodeHeader_take4,
      leDecode_leEncode 4 perfRecordLost (by norm_num [perfRecordLost])]
    simp [readLostRecords, he']
  · intro misc sz szv body hsz hb
    have hsz4 : szv < 256 ^ 4 := by norm_num at hsz ⊢; omega
    have hraw : (readRawSample (leEncode 4 szv ++ body)).1.2
        = some (.wrap (if body.length = 0 then .eof else .unexpectedEOF)
            "can\x27t read sample") := by
      rw [readRawSample, readFull_exact 4 _ _ (leEncode_length 4 szv)]
      simp only [leDecode_leEncode 4 szv hsz4]
      rw [if_neg (by omega)]
      by_cases hz : body.length = 0
      · rw [if_pos hz, if_pos hz]
      · rw [if_neg hz, if_neg hz]
    refine ⟨if body.length = 0 then .eof else .unexpectedEOF, ?_⟩
    rw [readRecord, readFull_exact 8 _ _ (encodeHeader_length _ _ _)]
    simp only [encodeHeader_take4,
      leDecode_leEncode 4 perfRecordSample (by norm_num [perfRecordSample])]
    simp [perfRecordSample, perfRecordLost, hraw]

theorem c10_witness :
    ((readRecord ([] : List Nat) 0).1.2 = some .eorErr ↔ ([] : List Nat) = [])
    ∧ (∃ e, (readRecord (encodeHeader perfRecordLost 0 0 ++ [1, 2]) 0).1.2
        = some (.wrap e "can\x27t read lost records header"))
    ∧ (∃ e, (readRecord (encodeHeader perfRecordSample 0 0
        ++ (leEncode 4 5 ++ [10, 20])) 0).1.2
        = some (.wrap e "can\x27t read sample")) :=
  ⟨(c10_eor_only_at_header_start 0).1 [],
   (c10_eor_only_at_header_start 0).2.1 0 0 [1, 2] (by norm_num),
   (c10_eor_only_at_header_start 0).2.2 0 0 5 [10, 20] (by norm_num) (by norm_num)⟩

/-! No error returned by the read loop is classified as temporary. -/

theorem readRecord_err_not_temporary (bs : List Nat) (cpu : Int) (e : GoErr)
    (h : (readRecord bs cpu).1.2 = some e) : isTemporary e = false := by
  rcases Nat.lt_or_ge bs.length 8 with hl | hl
  · by_cases hz : bs.length = 0
    · have hbs : bs = [] := List.length_eq_zero.mp hz
      subst hbs
      simp [readRecord, readFull] at h
      subst h; rfl
    · have hf : readFull 8 bs = .error .unexpectedEOF := by
        unfold readFull; rw [if_neg (by omega), if_neg hz]
      simp [readRecord, hf] at h
      subst h; rfl
  · have hf : readFull 8 bs = .ok (bs.take 8, bs.drop 8) := by
      unfold readFull; rw [if_pos hl]
    simp only [readRecord, hf] at h
    by_cases h2 : leDecode ((bs.take 8).take 4) = perfRecordLost
    · rw [if_pos h2] at h
      rcases readLostRecords_err_shape (bs.drop 8) with hs | ⟨e', hs⟩
      · simp [hs] at h
      · simp [hs] at h
        subst h; rfl
    · rw [if_neg h2] at h
      by_cases h9 : leDecode ((bs.take 8).take 4) = perfRecordSample
      · rw [if_pos h9] at h
        rcases readRawSample_err_shape (bs.drop 8) with hs | ⟨e', s', hs⟩
        · simp [hs] at h
        · simp [hs] at h
          subst h; rfl
      · rw [if_neg h9] at h
        simp at h
        subst h; rfl

theorem drainStack_err_not_temporary :
    ∀ (stack : List RingSnap) (rec : Record) (e : GoErr) (st : List RingSnap),
    drainStack stack = (some (rec, some e), st) → isTemporary e = false := by
  intro stack
  induction stack with
  | nil => intro rec e st h; simp [drainStack] at h
  | cons r rest ih =>
    intro rec e st h
    by_cases hc : (readRecord r.data r.cpu).1.2 = some .eorErr
    · rw [drainStack, if_pos hc] at h
      exact ih rec e st h
    · rw [drainStack, if_neg hc] at h
      have h1 : (readRecord r.data r.cpu).1 = (rec, some e) := by
        have := congrArg Prod.fst h
        simpa using this
      exact readRecord_err_not_temporary r.data r.cpu e (by rw [h1])

theorem waitLoop_err_not_temporary :
    ∀ (ws : List WaitOutcome) (rec : Record) (e : GoErr) (st : List RingSnap),
    waitLoop ws = some (rec, some e, st) → isTemporary e = false := by
  intro ws
  induction ws with
  | nil => intro rec e st h; simp [waitLoop] at h
  | cons w rest ih =>
    intro rec e st h
    cases w with
    | err e' =>
      by_cases ht : isTemporary e'
      · rw [waitLoop, if_pos ht] at h
        exact ih rec e st h
      · rw [waitLoop, if_neg ht] at h
        simp at h
        obtain ⟨h1, h2, h3⟩ := h
        subst h2
        simpa using ht
    | ready evs =>
      rcases hp : processEvents evs [] with ⟨pushed, b⟩
      cases b with
      | true =>
        rw [waitLoop, hp] at h
        simp at h
        obtain ⟨h1, h2, h3⟩ := h
        subst h2; rfl
      | false =>
        rw [waitLoop, hp] at h
        simp only [] at h
        rcases hd : drainStack pushed with ⟨od, st'⟩
        rw [hd] at h
        cases od with
        | none => exact ih rec e st h
        | some p =>
          obtain ⟨rec', oe⟩ := p
          simp at h
          obtain ⟨h1, h2, h3⟩ := h
          exact drainStack_err_not_temporary pushed rec' e st' (by rw [hd, h2])

/-- C7: a wait interruption classified as temporary is retried inside
the read loop and never surfaces: whatever error a terminating
execution of the loop returns, it is not a temporary error. -/
theorem c7_transient_wait_absorbed :
    ∀ (ws : List WaitOutcome) (stack : List RingSnap) (rec : Record)
      (e : GoErr) (st : List RingSnap),
    readModel ws stack = some (rec, some e, st) → isTemporary e = false := by
  intro ws stack rec e st h
  unfold readModel at h
  rcases hd : drainStack stack with ⟨od, st'⟩
  rw [hd] at h
  cases od with
  | none => exact waitLoop_err_not_temporary ws rec e st h
  | some p =>
    obtain ⟨rec', oe⟩ := p
    simp at h
    obtain ⟨h1, h2, h3⟩ := h
    exact drainStack_err_not_temporary stack rec' e st' (by rw [hd, h2])

theorem c7_witness : isTemporary (.syscall 13 false) = false :=
  c7_transient_wait_absorbed [.err (.syscall 13 false)] [] Record.zero
    (.syscall 13 false) [] (by decide)

/-- C9: when the record decoded from the ring on top of the
pending-ready stack produces an unknown-event error, `Read` returns
that error, the ring is not popped — the stack keeps the same rings
with only the failing ring's consumed bytes advanced — and no other
reader state changes. -/
theorem c9_unknown_event_keeps_ring (env : ReadEnv) (s : ReaderState)
    (cpu : Int) (data rem : List Nat) (rest : List RingSnap) (rec : Record)
    (e : GoErr)
    (hfd : ¬s.epollFd = -1)
    (hstack : s.epollRings = ⟨cpu, data⟩ :: rest)
    (hread : readRecord data cpu = ((rec, some e), rem))
    (hunk : IsUnknownEvent e = true) :
    Read env s = some (rec, some e, { s with epollRings := ⟨cpu, rem⟩ :: rest }) := by
  have hne : ¬(readRecord data cpu).1.2 = some .eorErr := by
    rw [hread]
    intro hc
    have he : e = .eorErr := by simpa using hc
    subst he
    simp [IsUnknownEvent, errorsCause] at hunk
  have hd : drainStack (⟨cpu, data⟩ :: rest)
      = (some (rec, some e), ⟨cpu, rem⟩ :: rest) := by
    rw [drainStack, if_neg hne]
    simp [hread]
  have hrm : readModel env.waitOutcomes (⟨cpu, data⟩ :: rest)
      = some (rec, some e, ⟨cpu, rem⟩ :: rest) := by
    unfold readModel
    rw [hd]
  rw [Read, if_neg hfd, hstack, hrm]

theorem c9_witness :
    Read ⟨[]⟩ ⟨3, 4, some 2, [⟨0, encodeHeader 5 0 0 ++ [9, 9]⟩, ⟨1, [3]⟩],
        some [10, 11], false, [(0, 10)], false⟩
      = some (Record.zero, some (.unknownEvent 5),
          { (⟨3, 4, some 2, [⟨0, encodeHeader 5 0 0 ++ [9, 9]⟩, ⟨1, [3]⟩],
              some [10, 11], false, [(0, 10)], false⟩ : ReaderState) with
            epollRings := [⟨0, [9, 9]⟩, ⟨1, [3]⟩] }) :=
  c9_unknown_event_keeps_ring ⟨[]⟩ _ 0 (encodeHeader 5 0 0 ++ [9, 9]) [9, 9]
    [⟨1, [3]⟩] Record.zero (.unknownEvent 5) (by decide) rfl (by decide) rfl

/-! Sample states and environments used to instantiate the theorems. -/

/-- A sample open reader state used to instantiate theorems. -/
def sOpen : ReaderState :=
  ⟨3, 4, some 2, [⟨0, [1, 2]⟩], some [10, 11], false, [(0, 10)], false⟩

/-- A close environment whose eventfd write succeeds. -/
def cenvOk : CloseEnv := ⟨true, .syscall 1 false⟩

/-- A read environment with no wait outcomes. -/
def renvNil : ReadEnv := ⟨[]⟩

/-- A pause environment whose deletes all succeed. -/
def penvOk : PauseEnv := ⟨fun _ => .ok⟩

/-- A resume environment whose puts all succeed. -/
def rsenvOk : ResumeEnv := ⟨fun _ => true, fun _ => .syscall 22 false⟩

/-- C5: once `Close` has completed its teardown, every later `Read`,
`Pause` and `Resume` call returns the `errClosed` sentinel (which
`IsClosed` accepts) and leaves the state unchanged, regardless of any
pending unread data in the stack or rings. -/
theorem c5_closed_after_close (s : ReaderState) (cenv : CloseEnv)
    (renv : ReadEnv) (penv : PauseEnv) (rsenv : ResumeEnv)
    (h1 : s.closeOnceDone = false) (h2 : cenv.writeOk = true) :
    Read renv (Close cenv s).1
        = some (Record.zero, some .closedErr, (Close cenv s).1)
    ∧ Pause penv (Close cenv s).1 = ((Close cenv s).1, some .closedErr)
    ∧ Resume rsenv (Close cenv s).1 = ((Close cenv s).1, some .closedErr)
    ∧ IsClosed .closedErr = true := by
  have hc : (Close cenv s).1
      = { s with
          closeOnceDone := true
          epollFd := -1
          closeFd := -1
          rings := none
          pauseFds := none
          arrayClosed := true } := by
    rw [Close, if_neg (by simp [h1]), if_pos h2]
  refine ⟨?_, ?_, ?_, rfl⟩ <;> rw [hc] <;> simp [Read, Pause, Resume]

theorem c5_witness :
    Read renvNil (Close cenvOk sOpen).1
        = some (Record.zero, some .closedErr, (Close cenvOk sOpen).1)
    ∧ Pause penvOk (Close cenvOk sOpen).1 = ((Close cenvOk sOpen).1, some .closedErr)
    ∧ Resume rsenvOk (Close cenvOk sOpen).1 = ((Close cenvOk sOpen).1, some .closedErr)
    ∧ IsClosed .closedErr = true :=
  c5_closed_after_close sOpen cenvOk renvNil penvOk rsenvOk rfl rfl

/-- C6: `Close` is guarded by a one-shot `sync.Once`: a first
successful call performs the full teardown trace, returns nil, and a
second call performs no teardown action at all, changes nothing, and
also returns nil. -/
theorem c6_close_once (s : ReaderState) (cenv : CloseEnv)
    (h1 : s.closeOnceDone = false) (h2 : cenv.writeOk = true) :
    (Close cenv s).2.1 = none
    ∧ (Close cenv (Close cenv s).1).2.1 = none
    ∧ (Close cenv (Close cenv s).1).2.2 = []
    ∧ (Close cenv (Close cenv s).1).1 = (Close cenv s).1
    ∧ (Close cenv s).2.2
        = [.writeEventfd, .closeEpollFd, .closeCloseFd]
            ++ (List.range (s.rings.getD 0)).map .closeRing ++ [.closeArray] := by
  simp [Close, h1, h2]

theorem c6_witness :
    (Close cenvOk sOpen).2.1 = none
    ∧ (Close cenvOk (Close cenvOk sOpen).1).2.1 = none
    ∧ (Close cenvOk (Close cenvOk sOpen).1).2.2 = []
    ∧ (Close cenvOk (Close cenvOk sOpen).1).1 = (Close cenvOk sOpen).1
    ∧ (Close cenvOk sOpen).2.2
        = [.writeEventfd, .closeEpollFd, .closeCloseFd]
            ++ (List.range (sOpen.rings.getD 0)).map .closeRing ++ [.closeArray] :=
  c6_close_once sOpen cenvOk rfl rfl

/-! Lookup lemmas for the event-array model and the resume loop. -/

theorem mapLookup_mapDelete (arr : List (Nat × Nat)) (k j : Nat) :
    mapLookup (mapDelete arr k) j = if j = k then none else mapLookup arr j := by
  induction arr with
  | nil => rw [mapDelete, mapLookup]; split <;> rfl
  | cons a rest ih =>
    rw [mapDelete]
    by_cases hk : a.1 = k
    · rw [if_pos hk, ih]
      by_cases hj : j = k
      · rw [if_pos hj, if_pos hj]
      · rw [if_neg hj, if_neg hj, mapLookup, if_neg (by omega)]
    · rw [if_neg hk, mapLookup]
      by_cases haj : a.1 = j
      · rw [if_pos haj, if_neg (by omega), mapLookup, if_pos haj]
      · rw [if_neg haj, ih]
        by_cases hj : j = k
        · rw [if_pos hj, if_pos hj]
        · rw [if_neg hj, if_neg hj, mapLookup, if_neg haj]

theorem mapLookup_mapPut (arr : List (Nat × Nat)) (k v j : Nat) :
    mapLookup (mapPut arr k v) j = if j = k then some v else mapLookup arr j := by
  rw [mapPut, mapLookup, mapLookup_mapDelete]
  by_cases hj : j = k
  · rw [if_pos (by omega), if_pos hj]
  · rw [if_neg (by omega), if_neg hj, if_neg hj]

theorem resumeLoop_ok_lookup (env : ResumeEnv) (fds : List Nat) :
    ∀ (cnt i : Nat) (arr : List (Nat × Nat)),
    (∀ j, i ≤ j → j < i + cnt → env.putOk j = true) →
    ((resumeLoop env fds arr i cnt).2 = none
     ∧ ∀ j, mapLookup (resumeLoop env fds arr i cnt).1 j
        = if i ≤ j ∧ j < i + cnt then some (fds.getD j 0) else mapLookup arr j) := by
  intro cnt
  induction cnt with
  | zero =>
    intro i arr h
    exact ⟨rfl, fun j => by rw [resumeLoop, if_neg (by omega)]⟩
  | succ cnt ih =>
    intro i arr h
    rw [resumeLoop, if_pos (h i le_rfl (by omega))]
    have hrec := ih (i + 1) (mapPut arr i (fds.getD i 0))
      (fun j h1 h2 => h j (by omega) (by omega))
    refine ⟨hrec.1, fun j => ?_⟩
    rw [hrec.2 j, mapLookup_mapPut]
    by_cases hji : j = i
    · subst hji
      rw [if_neg (by omega), if_pos rfl, if_pos (by omega)]
    · rw [if_neg hji]
      by_cases hrange : i + 1 ≤ j ∧ j < i + 1 + cnt
      · rw [if_pos hrange, if_pos (by omega)]
      · rw [if_neg hrange, if_neg (by omega)]

theorem resumeLoop_fail_lookup (env : ResumeEnv) (fds : List Nat) :
    ∀ (cnt i : Nat) (arr : List (Nat × Nat)) (k : Nat),
    i ≤ k → k < i + cnt →
    (∀ j, i ≤ j → j < k → env.putOk j = true) → env.putOk k = false →
    ((resumeLoop env fds arr i cnt).2
        = some (.wrap (env.putErr k) (resumeFailMsg (fds.getD k 0) k))
     ∧ ∀ j, mapLookup (resumeLoop env fds arr i cnt).1 j
        = if i ≤ j ∧ j < k then some (fds.getD j 0) else mapLookup arr j) := by
  intro cnt
  induction cnt with
  | zero => intro i arr k h1 h2 h3 h4; omega
  | succ cnt ih =>
    intro i arr k h1 h2 h3 h4
    by_cases hk : i = k
    · subst hk
      rw [resumeLoop, if_neg (by simp [h4])]
      exact ⟨rfl, fun j => by rw [if_neg (by omega)]⟩
    · rw [resumeLoop, if_pos (h3 i le_rfl (by omega))]
      have hrec := ih (i + 1) (mapPut arr i (fds.getD i 0)) k (by omega) (by omega)
        (fun j ha hb => h3 j (by omega) hb) h4
      refine ⟨hrec.1, fun j => ?_⟩
      rw [hrec.2 j, mapLookup_mapPut]
      by_cases hji : j = i
      · subst hji
        rw [if_neg (by omega), if_pos rfl, if_pos (by omega)]
      · rw [if_neg hji]
        by_cases hrange : i + 1 ≤ j ∧ j < k
        · rw [if_pos hrange, if_pos (by omega)]
        · rw [if_neg hrange, if_neg (by omega)]

/-- C8: if `Resume` fails while re-inserting the descriptor for CPU
index `k`, it aborts at once with an error reporting `k` (and the fd);
indices below `k` are inserted, indices from `k` on are untouched; and
re-running `Resume` in an environment where every put succeeds returns
nil and leaves the table exactly as a clean successful `Resume` would —
per-index insertion is idempotent. -/
theorem c8_resume_partial_failure (renv renv2 : ResumeEnv) (s : ReaderState)
    (fds : List Nat) (k : Nat)
    (hp : s.pauseFds = some fds) (hk : k < fds.length)
    (hok : ∀ j, j < k → renv.putOk j = true) (hfail : renv.putOk k = false)
    (hok2 : ∀ j, j < fds.length → renv2.putOk j = true) :
    (Resume renv s).2
        = some (.wrap (renv.putErr k) (resumeFailMsg (fds.getD k 0) k))
    ∧ (∀ j, j < k →
        mapLookup (Resume renv s).1.arrayContents j = some (fds.getD j 0))
    ∧ (∀ j, k ≤ j →
        mapLookup (Resume renv s).1.arrayContents j
          = mapLookup s.arrayContents j)
    ∧ (Resume renv2 (Resume renv s).1).2 = none
    ∧ (∀ j, mapLookup (Resume renv2 (Resume renv s).1).1.arrayContents j
          = mapLookup (Resume renv2 s).1.arrayContents j) := by
  have hfl := resumeLoop_fail_lookup renv fds fds.length 0
    s.arrayContents k (Nat.zero_le k) (by omega)
    (fun j _ hj => hok j hj) hfail
  have hr1 : Resume renv s
      = ({ s with arrayContents := (resumeLoop renv fds s.arrayContents 0 fds.length).1 },
         (resumeLoop renv fds s.arrayContents 0 fds.length).2) := by
    rw [Resume, hp]
  have hr1s : (Resume renv s).1.pauseFds = some fds := by rw [hr1]; exact hp
  have hr2 : Resume renv2 (Resume renv s).1
      = ({ (Resume renv s).1 with arrayContents :=
            (resumeLoop renv2 fds (Resume renv s).1.arrayContents 0 fds.length).1 },
         (resumeLoop renv2 fds (Resume renv s).1.arrayContents 0 fds.length).2) := by
    rw [Resume, hr1s]
    simp [hr1s]
  have hr3 : Resume renv2 s
      = ({ s with arrayContents := (resumeLoop renv2 fds s.arrayContents 0 fds.length).1 },
         (resumeLoop renv2 fds s.arrayContents 0 fds.length).2) := by
    rw [Resume, hp]
  have hok2l := resumeLoop_ok_lookup renv2 fds fds.length 0
    (Resume renv s).1.arrayContents (fun j _ hj => hok2 j (by omega))
  have hok2r := resumeLoop_ok_lookup renv2 fds fds.length 0
    s.arrayContents (fun j _ hj => hok2 j (by omega))
  refine ⟨?_, ?_, ?_, ?_, ?_⟩
  · rw [hr1]; exact hfl.1
  · intro j hj
    rw [hr1]
    have := hfl.2 j
    rw [if_pos ⟨Nat.zero_le j, hj⟩] at this
    exact this
  · intro j hj
    rw [hr1]
    have := hfl.2 j
    rw [if_neg (by omega)] at this
    exact this
  · rw [hr2]; exact hok2l.1
  · intro j
    rw [hr2, hr3]
    have hL := hok2l.2 j
    have hR := hok2r.2 j
    by_cases hrange : 0 ≤ j ∧ j < 0 + fds.length
    · rw [if_pos hrange] at hL hR
      rw [hL, hR]
    · rw [if_neg hrange] at hL hR
      rw [hL, hR, hr1]
      have := hfl.2 j
      rw [if_neg (by omega)] at this
      exact this

/-- A resume environment failing exactly at index 1. -/
def rsenvFail1 : ResumeEnv := ⟨fun i => decide (i ≠ 1), fun _ => .syscall 22 false⟩

theorem c8_witness :
    (Resume rsenvFail1 sOpen).2
        = some (.wrap (rsenvFail1.putErr 1) (resumeFailMsg ([10, 11].getD 1 0) 1))
    ∧ mapLookup (Resume rsenvFail1 sOpen).1.arrayContents 0 = some ([10, 11].getD 0 0)
    ∧ (Resume rsenvOk (Resume rsenvFail1 sOpen).1).2 = none := by
  have h := c8_resume_partial_failure rsenvFail1 rsenvOk sOpen [10, 11] 1
    rfl (by decide)
    (fun j hj => by
      have : j = 0 := by omega
      subst this; rfl)
    rfl
    (fun j hj => rfl)
  exact ⟨h.1, h.2.1 0 (by decide), h.2.2.2.1⟩

/-! Construction. -/

/-- A construction environment in which every external call succeeds. -/
def envAllOk : ConstructEnv :=
  ⟨true, fun _ => true, fun i => 10 + i, fun _ => true, true, true, true,
   fun _ => true, fun _ => .syscall 1 false, []⟩

/-- C1 counterexample: with every external call succeeding, a routing
table declaring `max_entries = 0` (< 1) and a per-CPU buffer of 1 byte,
construction succeeds and returns a reader — the code never checks
`max_entries < 1`, so the claim that construction fails in that case is
false. -/
theorem c1_counterexample :
    constructionOk (NewReaderWithOptions envAllOk 0 1 0) = true := by decide

/-- C1 (amended): construction fails with the configuration error — and
returns no reader — whenever the caller-supplied per-CPU buffer size is
< 1, whatever the environment, `max_entries` and watermark are;
`max_entries < 1` alone does not make construction fail. -/
theorem c1_percpu_buffer_check (env : ConstructEnv) (maxEntries : Nat)
    (pcb wm : Int) (h : pcb < 1) :
    NewReaderWithOptions env maxEntries pcb wm
      = .error (.msg "perCPUBuffer must be larger than 0") := by
  rw [NewReaderWithOptions, if_pos h]

theorem c1_witness :
    NewReaderWithOptions envAllOk 4 0 0
      = .error (.msg "perCPUBuffer must be larger than 0") :=
  c1_percpu_buffer_check envAllOk 4 0 0 (by norm_num)

end Perf
